import Mathlib

/-!
Verification development for the dynamic configuration subsystem of
sinhashubham95/go-example-project, i.e. the vendored package
github.com/angel-one/go-config-client (files appconfig.go, filebased.go,
configs.go).

The embedding is shallow: Go values of type interface holding parsed
configuration data become the inductive type Value; Go maps with string
keys become association lists (Go map semantics: at most one binding per
key, assignment replaces, delete removes); Go float64 numbers are carried
as rationals, with the Go conversion int64(f) embedded as truncation
toward zero; fallible Go functions returning (T, error) become
Except CError T; the AWS AppConfig poll goroutine body (one tick of
watchConfig) becomes a pure state-transition function recording, besides
the successor state, the listener invocations it performs and whether the
goroutine returns.
-/

set_option autoImplicit false

namespace GoConfigClient

/-- A parsed configuration value, the shallow embedding of the Go
dynamic value (interface holding the result of unmarshalling a document).
Numbers carry rationals standing for Go float64 contents. -/
inductive Value where
  | null
  | bool (b : Bool)
  | num (q : Rat)
  | str (s : String)
  | arr (xs : List Value)
  | map (m : List (String × Value))

/-- A parsed configuration tree: the Go map from string to interface
produced by the document parsers. -/
abbrev Tree := List (String × Value)

/-- Go map read m[k]: the value bound to k, if any. Association lists
model Go maps, whose keys are unique, so first match suffices. -/
def lookup {α : Type} : List (String × α) → String → Option α
  | [], _ => none
  | (k, v) :: rest, key => if k = key then some v else lookup rest key

/-- Go map assignment m[k] = v: replaces an existing binding, otherwise
appends a fresh one. -/
def setKey {α : Type} : List (String × α) → String → α → List (String × α)
  | [], key, v => [(key, v)]
  | (k, w) :: rest, key, v =>
    if k = key then (k, v) :: rest else (k, w) :: setKey rest key v

/-- Go builtin delete(m, k): removes the binding for k, if any. -/
def delKey {α : Type} : List (String × α) → String → List (String × α)
  | [], _ => []
  | (k, w) :: rest, key =>
    if k = key then rest else (k, w) :: delKey rest key

/-- Splitting a character list at every dot, the recursion behind the Go
call strings.Split(key, ".") used by the appconfig Get method. -/
def splitOnDot : List Char → List (List Char)
  | [] => [[]]
  | c :: rest =>
    let r := splitOnDot rest
    if c = '.' then [] :: r
    else
      match r with
      | [] => [[c]]
      | h :: t => (c :: h) :: t

/-- Embedding of the Go call strings.Split(key, "."): on the empty string
it yields the singleton list holding the empty string, otherwise the
dot-separated pieces of the key, empty pieces included. -/
def goSplitDots (s : String) : List String :=
  (splitOnDot s.toList).map (fun cs => String.mk cs)

/-- Embedding of the Go conversion int64(f) applied to a float64:
the fractional part is discarded, i.e. truncation toward zero. -/
def goInt64OfFloat (q : Rat) : Int :=
  q.num.tdiv q.den

/-- The path resolver: a direct embedding of the recursive helper
get(kList, key, val) of appconfig.go (lines 357 to 379). Given the
remaining key segments, the dotted prefix accumulated so far, and the
current node, it returns the resolved value or none. At a mapping node
it first looks up the prefix extended by the next single segment and, if
that binding exists and the recursion below it succeeds, returns that
result; otherwise it keeps accumulating a longer dotted literal key at
the same node. In Go the function returns a plain interface value whose
nil simultaneously encodes not-found and a resolved parsed null (the
parsers store a document null as the nil interface), and every caller
tests that interface against nil (the recursion via result, the Get
method via val); the model therefore folds a resolved null into none in
the base case, so that reaching a null leaf counts as a failed
resolution and triggers the literal dotted fallback exactly as the
nil checks do in Go. -/
def get : List String → String → Value → Option Value
  | [], key, val =>
    if key = "" ∨ key = "." then
      match val with
      | .null => none
      | _ => some val
    else none
  | k0 :: rest, key, val =>
    match val with
    | .map m =>
      let newKey := key ++ k0
      match lookup m newKey with
      | some v =>
        match get rest "" v with
        | some result => some result
        | none => get rest (newKey ++ ".") (.map m)
      | none => get rest (newKey ++ ".") (.map m)
    | _ => none

/-- The sentinel errors of both client implementations.
configNotAdded embeds ErrorAppConfigNotAdded and
ErrorFileBasedConfigNotAdded (the source is not registered),
configNotFound embeds ErrAppConfigNotFound (resolution failed),
invalidType embeds ErrAppConfigInvalidType (dynamic type mismatch), and
valueTypeInvalid embeds the ad hoc file-based GetSlice error built from
the message "invalid value type". -/
inductive CError where
  | configNotAdded
  | configNotFound
  | invalidType
  | valueTypeInvalid
  deriving DecidableEq, Repr

/-- Listener callbacks are opaque to the client code, which only stores,
replaces, deletes and invokes them; an abstract identity models them. -/
abbrev Listener := Nat

/-- One per-source configuration held by the AWS AppConfig client:
a version token and the parsed tree (the struct appConfig). -/
structure AppConfig where
  version : String
  data : Tree

/-- The AWS AppConfig client state relevant to the claims: the map from
source name to its current configuration, the listener registry, and the
occupancy of the buffered close channel (made by make with capacity 1). -/
structure AppConfigClient where
  configs : List (String × AppConfig)
  listeners : List (String × Listener)
  signalBuf : Nat

namespace AppConfigClient

/-- Embedding of the appconfig Get method: unknown source fails with
configNotAdded, the empty key returns the whole tree, otherwise the path
resolver runs on the dot-split key and nil resolution fails with
configNotFound. -/
def Get (a : AppConfigClient) (config key : String) : Except CError Value :=
  match lookup a.configs config with
  | some result =>
    if key = "" then .ok (.map result.data)
    else
      match get (goSplitDots key) "" (.map result.data) with
      | some val => .ok val
      | none => .error .configNotFound
  | none => .error .configNotAdded

/-- Embedding of the appconfig GetD method. -/
def GetD (a : AppConfigClient) (config key : String) (defaultValue : Value) : Value :=
  match a.Get config key with
  | .ok val => val
  | .error _ => defaultValue

/-- Embedding of the appconfig GetInt method: the resolved value must be
a float64, converted by int64(f). -/
def GetInt (a : AppConfigClient) (config key : String) : Except CError Int :=
  match a.Get config key with
  | .ok (.num q) => .ok (goInt64OfFloat q)
  | .ok _ => .error .invalidType
  | .error e => .error e

/-- Embedding of the appconfig GetIntD method. -/
def GetIntD (a : AppConfigClient) (config key : String) (defaultValue : Int) : Int :=
  match a.GetInt config key with
  | .ok val => val
  | .error _ => defaultValue

/-- Embedding of the appconfig GetFloat method. -/
def GetFloat (a : AppConfigClient) (config key : String) : Except CError Rat :=
  match a.Get config key with
  | .ok (.num q) => .ok q
  | .ok _ => .error .invalidType
  | .error e => .error e

/-- Embedding of the appconfig GetFloatD method. -/
def GetFloatD (a : AppConfigClient) (config key : String) (defaultValue : Rat) : Rat :=
  match a.GetFloat config key with
  | .ok val => val
  | .error _ => defaultValue

/-- Embedding of the appconfig GetString method. -/
def GetString (a : AppConfigClient) (config key : String) : Except CError String :=
  match a.Get config key with
  | .ok (.str s) => .ok s
  | .ok _ => .error .invalidType
  | .error e => .error e

/-- Embedding of the appconfig GetStringD method. -/
def GetStringD (a : AppConfigClient) (config key : String) (defaultValue : String) : String :=
  match a.GetString config key with
  | .ok val => val
  | .error _ => defaultValue

/-- Embedding of the appconfig GetBool method. -/
def GetBool (a : AppConfigClient) (config key : String) : Except CError Bool :=
  match a.Get config key with
  | .ok (.bool b) => .ok b
  | .ok _ => .error .invalidType
  | .error e => .error e

/-- Embedding of the appconfig GetBoolD method. -/
def GetBoolD (a : AppConfigClient) (config key : String) (defaultValue : Bool) : Bool :=
  match a.GetBool config key with
  | .ok val => val
  | .error _ => defaultValue

/-- Embedding of the appconfig GetSlice method. -/
def GetSlice (a : AppConfigClient) (config key : String) : Except CError (List Value) :=
  match a.Get config key with
  | .ok (.arr xs) => .ok xs
  | .ok _ => .error .invalidType
  | .error e => .error e

/-- Embedding of the appconfig GetSliceD method: note that, unlike the
element-typed slice variants, it substitutes the default only on error. -/
def GetSliceD (a : AppConfigClient) (config key : String) (defaultValue : List Value) : List Value :=
  match a.GetSlice config key with
  | .ok val => val
  | .error _ => defaultValue

/-- Dynamic type test used by the element loop of GetIntSlice:
keeps a float64 element, converted by int64(f), drops the rest. -/
def elemInt : Value → Option Int
  | .num q => some (goInt64OfFloat q)
  | _ => none

/-- Dynamic type test used by the element loop of GetFloatSlice. -/
def elemFloat : Value → Option Rat
  | .num q => some q
  | _ => none

/-- Dynamic type test used by the element loop of GetStringSlice. -/
def elemString : Value → Option String
  | .str s => some s
  | _ => none

/-- Dynamic type test used by the element loop of GetBoolSlice. -/
def elemBool : Value → Option Bool
  | .bool b => some b
  | _ => none

/-- Embedding of the appconfig GetIntSlice method: the element loop
appends only those elements whose dynamic type is float64. -/
def GetIntSlice (a : AppConfigClient) (config key : String) : Except CError (List Int) :=
  match a.GetSlice config key with
  | .ok val => .ok (val.filterMap elemInt)
  | .error e => .error e

/-- Embedding of the appconfig GetIntSliceD method: the default replaces
both an error and an empty result list. -/
def GetIntSliceD (a : AppConfigClient) (config key : String) (defaultValue : List Int) : List Int :=
  match a.GetIntSlice config key with
  | .ok val => if val.length = 0 then defaultValue else val
  | .error _ => defaultValue

/-- Embedding of the appconfig GetFloatSlice method. -/
def GetFloatSlice (a : AppConfigClient) (config key : String) : Except CError (List Rat) :=
  match a.GetSlice config key with
  | .ok val => .ok (val.filterMap elemFloat)
  | .error e => .error e

/-- Embedding of the appconfig GetFloatSliceD method. -/
def GetFloatSliceD (a : AppConfigClient) (config key : String) (defaultValue : List Rat) : List Rat :=
  match a.GetFloatSlice config key with
  | .ok val => if val.length = 0 then defaultValue else val
  | .error _ => defaultValue

/-- Embedding of the appconfig GetStringSlice method. -/
def GetStringSlice (a : AppConfigClient) (config key : String) : Except CError (List String) :=
  match a.GetSlice config key with
  | .ok val => .ok (val.filterMap elemString)
  | .error e => .error e

/-- Embedding of the appconfig GetStringSliceD method. -/
def GetStringSliceD (a : AppConfigClient) (config key : String) (defaultValue : List String) : List String :=
  match a.GetStringSlice config key with
  | .ok val => if val.length = 0 then defaultValue else val
  | .error _ => defaultValue

/-- Embedding of the appconfig GetBoolSlice method. -/
def GetBoolSlice (a : AppConfigClient) (config key : String) : Except CError (List Bool) :=
  match a.GetSlice config key with
  | .ok val => .ok (val.filterMap elemBool)
  | .error e => .error e

/-- Embedding of the appconfig GetBoolSliceD method. -/
def GetBoolSliceD (a : AppConfigClient) (config key : String) (defaultValue : List Bool) : List Bool :=
  match a.GetBoolSlice config key with
  | .ok val => if val.length = 0 then defaultValue else val
  | .error _ => defaultValue

/-- Embedding of the appconfig GetMap method. -/
def GetMap (a : AppConfigClient) (config key : String) : Except CError Tree :=
  match a.Get config key with
  | .ok (.map m) => .ok m
  | .ok _ => .error .invalidType
  | .error e => .error e

/-- Embedding of the appconfig GetMapD method: the default replaces both
an error and an empty result map. -/
def GetMapD (a : AppConfigClient) (config key : String) (defaultValue : Tree) : Tree :=
  match a.GetMap config key with
  | .ok val => if val.length = 0 then defaultValue else val
  | .error _ => defaultValue

/-- The entry loop shared by the typed map accessors: keeps the bindings
whose value passes the dynamic type test, drops the rest. -/
def filterEntries {α : Type} (f : Value → Option α) : Tree → List (String × α)
  | [] => []
  | (k, v) :: rest =>
    match f v with
    | some w => (k, w) :: filterEntries f rest
    | none => filterEntries f rest

/-- Embedding of the appconfig GetIntMap method. -/
def GetIntMap (a : AppConfigClient) (config key : String) : Except CError (List (String × Int)) :=
  match a.GetMap config key with
  | .ok val => .ok (filterEntries elemInt val)
  | .error e => .error e

/-- Embedding of the appconfig GetIntMapD method. -/
def GetIntMapD (a : AppConfigClient) (config key : String) (defaultValue : List (String × Int)) : List (String × Int) :=
  match a.GetIntMap config key with
  | .ok val => if val.length = 0 then defaultValue else val
  | .error _ => defaultValue

/-- Embedding of the appconfig GetFloatMap method. -/
def GetFloatMap (a : AppConfigClient) (config key : String) : Except CError (List (String × Rat)) :=
  match a.GetMap config key with
  | .ok val => .ok (filterEntries elemFloat val)
  | .error e => .error e

/-- Embedding of the appconfig GetFloatMapD method. -/
def GetFloatMapD (a : AppConfigClient) (config key : String) (defaultValue : List (String × Rat)) : List (String × Rat) :=
  match a.GetFloatMap config key with
  | .ok val => if val.length = 0 then defaultValue else val
  | .error _ => defaultValue

/-- Embedding of the appconfig GetStringMap method. -/
def GetStringMap (a : AppConfigClient) (config key : String) : Except CError (List (String × String)) :=
  match a.GetMap config key with
  | .ok val => .ok (filterEntries elemString val)
  | .error e => .error e

/-- Embedding of the appconfig GetStringMapD method. -/
def GetStringMapD (a : AppConfigClient) (config key : String) (defaultValue : List (String × String)) : List (String × String) :=
  match a.GetStringMap config key with
  | .ok val => if val.length = 0 then defaultValue else val
  | .error _ => defaultValue

/-- Embedding of the appconfig GetBoolMap method. -/
def GetBoolMap (a : AppConfigClient) (config key : String) : Except CError (List (String × Bool)) :=
  match a.GetMap config key with
  | .ok val => .ok (filterEntries elemBool val)
  | .error e => .error e

/-- Embedding of the appconfig GetBoolMapD method. -/
def GetBoolMapD (a : AppConfigClient) (config key : String) (defaultValue : List (String × Bool)) : List (String × Bool) :=
  match a.GetBoolMap config key with
  | .ok val => if val.length = 0 then defaultValue else val
  | .error _ => defaultValue

/-- Embedding of the appconfig AddChangeListener method: an unknown
source fails with configNotAdded, otherwise the callback is stored under
the source name, replacing any previous one. -/
def AddChangeListener (a : AppConfigClient) (config : String) (listener : Listener) : Except CError AppConfigClient :=
  match lookup a.configs config with
  | some _ => .ok { a with listeners := setKey a.listeners config listener }
  | none => .error .configNotAdded

/-- Embedding of the appconfig RemoveChangeListener method: an unknown
source fails with configNotAdded, otherwise the binding is deleted,
whether or not it was present. -/
def RemoveChangeListener (a : AppConfigClient) (config : String) : Except CError AppConfigClient :=
  match lookup a.configs config with
  | some _ => .ok { a with listeners := delKey a.listeners config }
  | none => .error .configNotAdded

end AppConfigClient

/-- One listener invocation performed by a poll cycle: the callback
identity together with the version and tree it is called with, embedding
the Go call l(config.version, config.data). -/
structure ListenerCall where
  listener : Listener
  version : String
  data : Tree

/-- What one tick of the appconfig watchConfig loop can observe from the
remote store: none embeds a GetConfiguration error, some (v, c) a reply
carrying the reported ConfigurationVersion v and the raw Content c. -/
abbrev FetchReply := Option (String × String)

/-- The outcome of one tick of watchConfig: the successor per-source
configuration, the listener invocations the tick performed, and whether
the goroutine returned (leaving the loop) on this tick. -/
structure CycleResult where
  cfg : AppConfig
  calls : List ListenerCall
  stopped : Bool

/-- Embedding of one ticker tick of watchConfig (appconfig.go lines 190
to 233) for source name over the current configuration cfg, registered
listeners, and the document parser. A fetch error makes the goroutine
return; an unchanged remote version leaves everything untouched; a
changed version is parsed and, on parse failure, the change is ignored,
while on success version and tree are replaced and the listener for the
source, if registered, is invoked once with the new version and tree. -/
def pollCycle (parse : String → Option Tree) (listeners : List (String × Listener))
    (name : String) (cfg : AppConfig) (reply : FetchReply) : CycleResult :=
  match reply with
  | none => { cfg := cfg, calls := [], stopped := true }
  | some (remoteVersion, content) =>
    if remoteVersion ≠ cfg.version then
      match parse content with
      | none => { cfg := cfg, calls := [], stopped := false }
      | some data =>
        let newCfg : AppConfig := { version := remoteVersion, data := data }
        match lookup listeners name with
        | some l =>
          { cfg := newCfg
            calls := [{ listener := l, version := remoteVersion, data := data }]
            stopped := false }
        | none => { cfg := newCfg, calls := [], stopped := false }
    else { cfg := cfg, calls := [], stopped := false }

/-- The watchConfig loop over a finite schedule of ticks: each tick is
processed by pollCycle and the loop stops early exactly when a cycle
makes the goroutine return. Returns the final configuration, all
listener invocations in order, and whether the loop stopped before
exhausting the schedule. -/
def pollLoop (parse : String → Option Tree) (listeners : List (String × Listener))
    (name : String) : AppConfig → List FetchReply → AppConfig × List ListenerCall × Bool
  | cfg, [] => (cfg, [], false)
  | cfg, reply :: ticks =>
    let r := pollCycle parse listeners name cfg reply
    if r.stopped then (r.cfg, r.calls, true)
    else
      let rest := pollLoop parse listeners name r.cfg ticks
      (rest.1, r.calls ++ rest.2.1, rest.2.2)

/-- Sending on the close channel of the appconfig client, which is
created with capacity 1: the send completes when the buffer has room and
blocks forever otherwise (none embeds a send that never completes). -/
def chanSendCap1 (buf : Nat) : Option Nat :=
  if buf < 1 then some (buf + 1) else none

/-- Embedding of the appconfig Close method: it performs one send on the
buffered signal channel and then returns a nil error. The result is none
when the send blocks forever, i.e. when the buffer already holds an
undrained signal; otherwise the successor state and the returned error
(always nil, embedded as none). -/
def AppConfigClient.CloseStep (a : AppConfigClient) : Option (AppConfigClient × Option CError) :=
  match chanSendCap1 a.signalBuf with
  | some buf => some ({ a with signalBuf := buf }, none)
  | none => none

/-- Modelled from the spec: the file-based client delegates per-key
resolution and coercion to the external viper library
(github.com/spf13/viper), whose code is not part of this repository's
sources; each viper accessor used by filebased.go is therefore an
abstract function of the key, so every theorem about the file-based
client quantifies over all possible viper behaviours. -/
structure Viper where
  get : String → Option Value
  getInt64 : String → Int
  getFloat64 : String → Rat
  getString : String → String
  getBool : String → Bool
  getStringSlice : String → List String
  getStringMap : String → Tree
  getStringMapString : String → List (String × String)

/-- The file-based client state relevant to the claims: the map from
source name to its viper instance and the listener registry. -/
structure FileBasedClient where
  configs : List (String × Viper)
  listeners : List (String × Listener)

namespace FileBasedClient

/-- Embedding of the file-based Get method: an unknown source fails with
configNotAdded; a registered source returns whatever viper yields (nil
included) together with a nil error. -/
def Get (f : FileBasedClient) (config key : String) : Except CError (Option Value) :=
  match lookup f.configs config with
  | some v => .ok (v.get key)
  | none => .error .configNotAdded

/-- Embedding of the file-based GetD method: the default replaces both
an error and a nil resolved value. -/
def GetD (f : FileBasedClient) (config key : String) (defaultValue : Value) : Value :=
  match f.Get config key with
  | .ok (some val) => val
  | .ok none => defaultValue
  | .error _ => defaultValue

/-- Embedding of the file-based GetInt method: a registered source
returns viper's GetInt64 result with a nil error. -/
def GetInt (f : FileBasedClient) (config key : String) : Except CError Int :=
  match lookup f.configs config with
  | some v => .ok (v.getInt64 key)
  | none => .error .configNotAdded

/-- Embedding of the file-based GetIntD method: the default replaces
both an error and the value 0. -/
def GetIntD (f : FileBasedClient) (config key : String) (defaultValue : Int) : Int :=
  match f.GetInt config key with
  | .ok val => if val = 0 then defaultValue else val
  | .error _ => defaultValue

/-- Embedding of the file-based GetFloat method. -/
def GetFloat (f : FileBasedClient) (config key : String) : Except CError Rat :=
  match lookup f.configs config with
  | some v => .ok (v.getFloat64 key)
  | none => .error .configNotAdded

/-- Embedding of the file-based GetFloatD method: the default replaces
both an error and the value 0. -/
def GetFloatD (f : FileBasedClient) (config key : String) (defaultValue : Rat) : Rat :=
  match f.GetFloat config key with
  | .ok val => if val = 0 then defaultValue else val
  | .error _ => defaultValue

/-- Embedding of the file-based GetString method. -/
def GetString (f : FileBasedClient) (config key : String) : Except CError String :=
  match lookup f.configs config with
  | some v => .ok (v.getString key)
  | none => .error .configNotAdded

/-- Embedding of the file-based GetStringD method: the default replaces
both an error and the empty string. -/
def GetStringD (f : FileBasedClient) (config key : String) (defaultValue : String) : String :=
  match f.GetString config key with
  | .ok val => if val = "" then defaultValue else val
  | .error _ => defaultValue

/-- Embedding of the file-based GetBool method. -/
def GetBool (f : FileBasedClient) (config key : String) : Except CError Bool :=
  match lookup f.configs config with
  | some v => .ok (v.getBool key)
  | none => .error .configNotAdded

/-- Embedding of the file-based GetBoolD method: the default replaces
both an error and the value false. -/
def GetBoolD (f : FileBasedClient) (config key : String) (defaultValue : Bool) : Bool :=
  match f.GetBool config key with
  | .ok val => if val = false then defaultValue else val
  | .error _ => defaultValue

/-- Embedding of the file-based GetSlice method: on a registered source
the viper result must assert to a slice of values, and any other result
(nil included) yields the "invalid value type" error. -/
def GetSlice (f : FileBasedClient) (config key : String) : Except CError (List Value) :=
  match f.Get config key with
  | .ok (some (.arr xs)) => .ok xs
  | .ok _ => .error .valueTypeInvalid
  | .error e => .error e

/-- Embedding of the file-based GetSliceD method. -/
def GetSliceD (f : FileBasedClient) (config key : String) (defaultValue : List Value) : List Value :=
  match f.GetSlice config key with
  | .ok val => if val.length = 0 then defaultValue else val
  | .error _ => defaultValue

/-- Embedding of the file-based GetIntSlice method: same element loop as
the appconfig variant, over the GetSlice result. -/
def GetIntSlice (f : FileBasedClient) (config key : String) : Except CError (List Int) :=
  match f.GetSlice config key with
  | .ok val => .ok (val.filterMap AppConfigClient.elemInt)
  | .error e => .error e

/-- Embedding of the file-based GetIntSliceD method. -/
def GetIntSliceD (f : FileBasedClient) (config key : String) (defaultValue : List Int) : List Int :=
  match f.GetIntSlice config key with
  | .ok val => if val.length = 0 then defaultValue else val
  | .error _ => defaultValue

/-- Embedding of the file-based GetFloatSlice method. -/
def GetFloatSlice (f : FileBasedClient) (config key : String) : Except CError (List Rat) :=
  match f.GetSlice config key with
  | .ok val => .ok (val.filterMap AppConfigClient.elemFloat)
  | .error e => .error e

/-- Embedding of the file-based GetFloatSliceD method. -/
def GetFloatSliceD (f : FileBasedClient) (config key : String) (defaultValue : List Rat) : List Rat :=
  match f.GetFloatSlice config key with
  | .ok val => if val.length = 0 then defaultValue else val
  | .error _ => defaultValue

/-- Embedding of the file-based GetBoolSlice method. -/
def GetBoolSlice (f : FileBasedClient) (config key : String) : Except CError (List Bool) :=
  match f.GetSlice config key with
  | .ok val => .ok (val.filterMap AppConfigClient.elemBool)
  | .error e => .error e

/-- Embedding of the file-based GetBoolSliceD method. -/
def GetBoolSliceD (f : FileBasedClient) (config key : String) (defaultValue : List Bool) : List Bool :=
  match f.GetBoolSlice config key with
  | .ok val => if val.length = 0 then defaultValue else val
  | .error _ => defaultValue

/-- Embedding of the file-based GetStringSlice method, which delegates
to viper's GetStringSlice on a registered source. -/
def GetStringSlice (f : FileBasedClient) (config key : String) : Except CError (List String) :=
  match lookup f.configs config with
  | some v => .ok (v.getStringSlice key)
  | none => .error .configNotAdded

/-- Embedding of the file-based GetStringSliceD method. -/
def GetStringSliceD (f : FileBasedClient) (config key : String) (defaultValue : List String) : List String :=
  match f.GetStringSlice config key with
  | .ok val => if val.length = 0 then defaultValue else val
  | .error _ => defaultValue

/-- Embedding of the file-based GetMap method, which delegates to
viper's GetStringMap on a registered source. -/
def GetMap (f : FileBasedClient) (config key : String) : Except CError Tree :=
  match lookup f.configs config with
  | some v => .ok (v.getStringMap key)
  | none => .error .configNotAdded

/-- Embedding of the file-based GetMapD method. -/
def GetMapD (f : FileBasedClient) (config key : String) (defaultValue : Tree) : Tree :=
  match f.GetMap config key with
  | .ok val => if val.length = 0 then defaultValue else val
  | .error _ => defaultValue

/-- Embedding of the file-based GetIntMap method: same entry loop as the
appconfig variant, over the GetMap result. -/
def GetIntMap (f : FileBasedClient) (config key : String) : Except CError (List (String × Int)) :=
  match f.GetMap config key with
  | .ok val => .ok (AppConfigClient.filterEntries AppConfigClient.elemInt val)
  | .error e => .error e

/-- Embedding of the file-based GetIntMapD method. -/
def GetIntMapD (f : FileBasedClient) (config key : String) (defaultValue : List (String × Int)) : List (String × Int) :=
  match f.GetIntMap config key with
  | .ok val => if val.length = 0 then defaultValue else val
  | .error _ => defaultValue

/-- Embedding of the file-based GetFloatMap method. -/
def GetFloatMap (f : FileBasedClient) (config key : String) : Except CError (List (String × Rat)) :=
  match f.GetMap config key with
  | .ok val => .ok (AppConfigClient.filterEntries AppConfigClient.elemFloat val)
  | .error e => .error e

/-- Embedding of the file-based GetFloatMapD method. -/
def GetFloatMapD (f : FileBasedClient) (config key : String) (defaultValue : List (String × Rat)) : List (String × Rat) :=
  match f.GetFloatMap config key with
  | .ok val => if val.length = 0 then defaultValue else val
  | .error _ => defaultValue

/-- Embedding of the file-based GetStringMap method, which delegates to
viper's GetStringMapString on a registered source. -/
def GetStringMap (f : FileBasedClient) (config key : String) : Except CError (List (String × String)) :=
  match lookup f.configs config with
  | some v => .ok (v.getStringMapString key)
  | none => .error .configNotAdded

/-- Embedding of the file-based GetStringMapD method. -/
def GetStringMapD (f : FileBasedClient) (config key : String) (defaultValue : List (String × String)) : List (String × String) :=
  match f.GetStringMap config key with
  | .ok val => if val.length = 0 then defaultValue else val
  | .error _ => defaultValue

/-- Embedding of the file-based GetBoolMap method. -/
def GetBoolMap (f : FileBasedClient) (config key : String) : Except CError (List (String × Bool)) :=
  match f.GetMap config key with
  | .ok val => .ok (AppConfigClient.filterEntries AppConfigClient.elemBool val)
  | .error e => .error e

/-- Embedding of the file-based GetBoolMapD method. -/
def GetBoolMapD (f : FileBasedClient) (config key : String) (defaultValue : List (String × Bool)) : List (String × Bool) :=
  match f.GetBoolMap config key with
  | .ok val => if val.length = 0 then defaultValue else val
  | .error _ => defaultValue

/-- Embedding of the file-based AddChangeListener method: no check that
the source is registered; the callback is stored unconditionally and a
nil error is returned. -/
def AddChangeListener (f : FileBasedClient) (config : String) (listener : Listener) : Except CError FileBasedClient :=
  .ok { f with listeners := setKey f.listeners config listener }

/-- Embedding of the file-based RemoveChangeListener method: no check
that the source is registered; the binding is deleted, whether or not it
was present, and a nil error is returned. -/
def RemoveChangeListener (f : FileBasedClient) (config : String) : Except CError FileBasedClient :=
  .ok { f with listeners := delKey f.listeners config }

/-- Embedding of the file-based Close method: every entry of the configs
map and of the listeners map is deleted and a nil error is returned. -/
def CloseStep (_f : FileBasedClient) : FileBasedClient × Option CError :=
  ({ configs := [], listeners := [] }, none)

end FileBasedClient

/-! ### Fixtures used by the witnesses and counterexamples -/

/-- The deliberately ambiguous fixture named by the specification: the
literal dotted key "a.b" bound to 1 next to a nested mapping taking a to
a mapping taking b to 2. -/
def ambiguousTree : Tree := [("a.b", .num 1), ("a", .map [("b", .num 2)])]

/-- A fixture whose nested interpretation fails below the key a, so only
the literal dotted key "a.b" can resolve the lookup a.b. -/
def literalOnlyTree : Tree := [("a.b", .num 1), ("a", .map [("c", .num 2)])]

/-- A remote-versioned client holding the ambiguous fixture under the
source name app. -/
def ambiguousClient : AppConfigClient :=
  { configs := [("app", { version := "1", data := ambiguousTree })]
    listeners := []
    signalBuf := 0 }

/-- A remote-versioned client whose source app holds a key with the
legitimate value 0 and the nested scenario tree of the specification. -/
def scenarioClient : AppConfigClient :=
  { configs :=
      [("app",
        { version := "1"
          data := [("zero", .num 0), ("http", .map [("timeoutInMillis", .num 500)])] })]
    listeners := []
    signalBuf := 0 }

/-- A viper instance whose every lookup yields the zero value of the
requested type, exactly what viper reports both for an absent key and
for a key authored with the legitimate zero value. -/
def zeroViper : Viper :=
  { get := fun _ => some (.num 0)
    getInt64 := fun _ => 0
    getFloat64 := fun _ => 0
    getString := fun _ => ""
    getBool := fun _ => false
    getStringSlice := fun _ => []
    getStringMap := fun _ => []
    getStringMapString := fun _ => [] }

/-- A file-based client whose registered source app answers every key
with the zero value of the requested type. -/
def zeroFileClient : FileBasedClient :=
  { configs := [("app", zeroViper)], listeners := [] }

/-- A viper instance for which every key is absent: the untyped lookup
yields nil and the typed lookups yield the zero values, as viper does
when resolution fails. -/
def absentViper : Viper :=
  { get := fun _ => none
    getInt64 := fun _ => 0
    getFloat64 := fun _ => 0
    getString := fun _ => ""
    getBool := fun _ => false
    getStringSlice := fun _ => []
    getStringMap := fun _ => []
    getStringMapString := fun _ => [] }

/-- A file-based client whose registered source app has no keys at all. -/
def absentFileClient : FileBasedClient :=
  { configs := [("app", absentViper)], listeners := [] }

/-! ### Helper lemmas on the map operations -/

/-- Reading back a key just assigned yields the assigned value: the Go
map assignment replaces any earlier binding. -/
theorem lookup_setKey_self {α : Type} (l : List (String × α)) (key : String) (v : α) :
    lookup (setKey l key v) key = some v := by
  induction l with
  | nil => simp [setKey, lookup]
  | cons p rest ih =>
    obtain ⟨k, w⟩ := p
    by_cases h : k = key
    · simp [setKey, lookup, h]
    · simp [setKey, lookup, h, ih]

/-- Deleting a key that has no binding leaves the map unchanged. -/
theorem delKey_of_lookup_none {α : Type} (l : List (String × α)) (key : String)
    (h : lookup l key = none) : delKey l key = l := by
  induction l with
  | nil => simp [delKey]
  | cons p rest ih =>
    obtain ⟨k, w⟩ := p
    by_cases hk : k = key
    · simp [lookup, hk] at h
    · simp only [lookup, if_neg hk] at h
      simp [delKey, hk, ih h]

/-- The entry loop of the typed map accessors keeps nothing when every
entry fails the dynamic type test. -/
theorem filterEntries_eq_nil {α : Type} (f : Value → Option α) (m : Tree)
    (h : ∀ p ∈ m, f p.2 = none) : AppConfigClient.filterEntries f m = [] := by
  induction m with
  | nil => rfl
  | cons p rest ih =>
    have h1 : f p.2 = none := h p (by simp)
    simp only [AppConfigClient.filterEntries, h1]
    exact ih (fun q hq => h q (by simp [hq]))

/-- Over a list of float64 elements, the element loop of GetIntSlice
keeps every element and converts it by int64(f). -/
theorem filterMap_elemInt_map_num (qs : List Rat) :
    (qs.map Value.num).filterMap AppConfigClient.elemInt = qs.map goInt64OfFloat := by
  induction qs with
  | nil => rfl
  | cons q rest ih => simp [List.filterMap_cons, AppConfigClient.elemInt, ih]

/-- Over a tree of float64 entries, the entry loop of GetIntMap keeps
every entry and converts it by int64(f). -/
theorem filterEntries_elemInt_map_num (entries : List (String × Rat)) :
    AppConfigClient.filterEntries AppConfigClient.elemInt
        (entries.map (fun p => (p.1, Value.num p.2))) =
      entries.map (fun p => (p.1, goInt64OfFloat p.2)) := by
  induction entries with
  | nil => rfl
  | cons p rest ih =>
    simp only [List.map_cons, AppConfigClient.filterEntries, AppConfigClient.elemInt, ih]

/-- A tick whose fetch succeeds never makes the watch goroutine return,
whatever the version comparison, the parse outcome and the listener
registry say. -/
theorem pollCycle_some_not_stopped (parse : String → Option Tree)
    (listeners : List (String × Listener)) (name : String) (cfg : AppConfig)
    (v c : String) :
    (pollCycle parse listeners name cfg (some (v, c))).stopped = false := by
  simp only [pollCycle]
  by_cases hv : v ≠ cfg.version
  · simp only [if_pos hv]
    cases hp : parse c with
    | none => rfl
    | some d =>
      cases hl : lookup listeners name with
      | none => rfl
      | some l => rfl
  · simp only [if_neg hv]

/-- The resolver never reports a null as a successfully resolved value:
in Go its result is an interface tested against nil by every caller, and
a parsed null is that same nil, so a null leaf is indistinguishable from
absence. -/
theorem get_never_null (ks : List String) (key : String) (val : Value) :
    get ks key val ≠ some .null := by
  induction ks generalizing key val with
  | nil =>
    intro h
    simp only [get] at h
    split at h
    · cases val <;> simp_all
    · cases h
  | cons k0 rest ih =>
    intro h
    cases val with
    | map m =>
      simp only [get] at h
      cases hl : lookup m (key ++ k0) with
      | some v =>
        simp only [hl] at h
        cases hg : get rest "" v with
        | some r =>
          simp only [hg] at h
          cases h
          exact ih "" v hg
        | none =>
          simp only [hg] at h
          exact ih (key ++ k0 ++ ".") (.map m) h
      | none =>
        simp only [hl] at h
        exact ih (key ++ k0 ++ ".") (.map m) h
    | null => simp [get] at h
    | bool b => simp [get] at h
    | num q => simp [get] at h
    | str s => simp [get] at h
    | arr xs => simp [get] at h

/-! ### Claim C1: path resolver precedence -/

/-- A fixture whose nested interpretation reaches a parsed null (the nil
interface in Go): the resolver treats that as not-found and falls back
to the literal dotted key. -/
def nullNestedTree : Tree := [("a", .map [("b", .null)]), ("a.b", .num 1)]

/-- C1, counterexample: on the ambiguous fixture with the literal key
"a.b" bound to 1 and the nested path a then b bound to 2, the resolver
of appconfig.go returns 2, via the appconfig Get method as well, so the
literal map key is NOT preferred over segment-by-segment nested descent
and the resolved value in the ambiguous fixture is not 1. -/
theorem c1_counterexample :
    get (goSplitDots "a.b") "" (.map ambiguousTree) = some (.num 2) ∧
    ambiguousClient.Get "app" "a.b" = .ok (.num 2) ∧
    Value.num 2 ≠ Value.num 1 := by
  refine ⟨rfl, rfl, fun h => ?_⟩
  injection h with h2
  exact absurd h2 (by norm_num)

/-- C1 (amended): the resolver tries the SHORTEST unconsumed prefix
first: whenever the current mapping binds the accumulated prefix
extended by the next single segment and the recursion below that binding
succeeds with a non-nil result (the resolver never reports null as
success), that nested result is returned, regardless of any literal
dotted binding at the same level; the longer literal dotted keys are
only a fallback, as on the fixture where nested descent fails below a
and the literal key "a.b" then resolves the lookup to 1, and likewise
on the fixture where nested descent reaches a parsed null, which counts
as not-found, so the literal key again resolves the lookup to 1; a key
resolving only to a null is simply not found. -/
theorem c1_shortest_prefix_precedence :
    (∀ (m : Tree) (key k0 : String) (rest : List String) (v r : Value),
        lookup m (key ++ k0) = some v → get rest "" v = some r →
        get (k0 :: rest) key (.map m) = some r) ∧
    (∀ (ks : List String) (key : String) (val : Value),
        get ks key val ≠ some .null) ∧
    get (goSplitDots "a.b") "" (.map literalOnlyTree) = some (.num 1) ∧
    get (goSplitDots "a.b") "" (.map nullNestedTree) = some (.num 1) ∧
    get (goSplitDots "a") "" (.map [("a", .null)]) = none := by
  refine ⟨fun m key k0 rest v r h1 h2 => ?_, get_never_null, rfl, rfl, rfl⟩
  simp only [get, h1, h2]

/-- C1, witness: the precedence statement applied to the ambiguous
fixture itself, where the nested interpretation yields 2. -/
theorem c1_witness :
    get ["a", "b"] "" (.map ambiguousTree) = some (.num 2) :=
  c1_shortest_prefix_precedence.1 ambiguousTree "" "a" ["b"]
    (.map [("b", .num 2)]) (.num 2) rfl rfl

/-! ### Claim C2: defaulting asymmetry of the defaulted accessors -/

/-- C2, counterexample: on the file-based client, a source whose key is
present with the legitimate zero value makes the non-defaulted accessor
succeed with that zero, yet the defaulted scalar accessors substitute
the default anyway, contradicting the claim that scalar defaulting
triggers only on error. -/
theorem c2_counterexample :
    zeroFileClient.GetInt "app" "k" = .ok 0 ∧
    zeroFileClient.GetIntD "app" "k" 7 = 7 ∧
    zeroFileClient.GetBool "app" "k" = .ok false ∧
    zeroFileClient.GetBoolD "app" "k" true = true ∧
    zeroFileClient.GetString "app" "k" = .ok "" ∧
    zeroFileClient.GetStringD "app" "k" "fallback" = "fallback" :=
  ⟨rfl, rfl, rfl, rfl, rfl, rfl⟩

/-- C2 (amended): on the remote-versioned client the scalar defaulted
accessors return the default exactly on error and pass every
successfully resolved value through, zero values included; on the
file-based client they additionally substitute the default whenever the
resolved value is the zero value of the type (0, 0.0, the empty string,
false); the element-typed slice and map defaulted variants of both
clients, and the untyped slice and map defaulted variants of the
file-based client and the untyped map variant of the remote one, also
substitute the default for an empty resolved collection, while the
untyped GetSliceD of the remote client defaults only on error. -/
theorem c2_defaulting_asymmetry :
    (∀ (a : AppConfigClient) (config key : String) (d v : Int),
        a.GetInt config key = .ok v → a.GetIntD config key d = v) ∧
    (∀ (a : AppConfigClient) (config key : String) (d v : Rat),
        a.GetFloat config key = .ok v → a.GetFloatD config key d = v) ∧
    (∀ (a : AppConfigClient) (config key : String) (d v : String),
        a.GetString config key = .ok v → a.GetStringD config key d = v) ∧
    (∀ (a : AppConfigClient) (config key : String) (d v : Bool),
        a.GetBool config key = .ok v → a.GetBoolD config key d = v) ∧
    (∀ (f : FileBasedClient) (config key : String) (d v : Int),
        f.GetInt config key = .ok v →
        f.GetIntD config key d = if v = 0 then d else v) ∧
    (∀ (f : FileBasedClient) (config key : String) (d v : Rat),
        f.GetFloat config key = .ok v →
        f.GetFloatD config key d = if v = 0 then d else v) ∧
    (∀ (f : FileBasedClient) (config key : String) (d v : String),
        f.GetString config key = .ok v →
        f.GetStringD config key d = if v = "" then d else v) ∧
    (∀ (f : FileBasedClient) (config key : String) (d v : Bool),
        f.GetBool config key = .ok v →
        f.GetBoolD config key d = if v = false then d else v) ∧
    (∀ (a : AppConfigClient) (config key : String) (d : List Int),
        a.GetIntSlice config key = .ok [] → a.GetIntSliceD config key d = d) ∧
    (∀ (a : AppConfigClient) (config key : String) (d : Tree),
        a.GetMap config key = .ok [] → a.GetMapD config key d = d) ∧
    (∀ (f : FileBasedClient) (config key : String) (d : List Value),
        f.GetSlice config key = .ok [] → f.GetSliceD config key d = d) ∧
    (∀ (a : AppConfigClient) (config key : String) (d v : List Value),
        a.GetSlice config key = .ok v → a.GetSliceD config key d = v) := by
  refine ⟨?_, ?_, ?_, ?_, ?_, ?_, ?_, ?_, ?_, ?_, ?_, ?_⟩
  · intro a config key d v h; simp [AppConfigClient.GetIntD, h]
  · intro a config key d v h; simp [AppConfigClient.GetFloatD, h]
  · intro a config key d v h; simp [AppConfigClient.GetStringD, h]
  · intro a config key d v h; simp [AppConfigClient.GetBoolD, h]
  · intro f config key d v h; simp [FileBasedClient.GetIntD, h]
  · intro f config key d v h; simp [FileBasedClient.GetFloatD, h]
  · intro f config key d v h; simp [FileBasedClient.GetStringD, h]
  · intro f config key d v h; simp [FileBasedClient.GetBoolD, h]
  · intro a config key d h; simp [AppConfigClient.GetIntSliceD, h]
  · intro a config key d h; simp [AppConfigClient.GetMapD, h]
  · intro f config key d h; simp [FileBasedClient.GetSliceD, h]
  · intro a config key d v h; simp [AppConfigClient.GetSliceD, h]

/-- C2, witness: on the remote client a key present with value 0 passes
through the defaulted accessor untouched. -/
theorem c2_witness :
    scenarioClient.GetIntD "app" "zero" 1000 = 0 :=
  c2_defaulting_asymmetry.1 scenarioClient "app" "zero" 1000 0 rfl

/-! ### Claim C3: absence is an error, never a fabricated value -/

/-- C3, counterexample: on the file-based client, a registered source
whose resolution fails makes the non-defaulted accessors succeed with
viper's zero values instead of returning a key-not-found error. -/
theorem c3_counterexample :
    absentFileClient.Get "app" "missing" = .ok none ∧
    absentFileClient.GetInt "app" "missing" = .ok 0 ∧
    absentFileClient.GetString "app" "missing" = .ok "" ∧
    absentFileClient.GetBool "app" "missing" = .ok false :=
  ⟨rfl, rfl, rfl, rfl⟩

/-- C3 (amended): on the remote-versioned client, a registered source
with a non-empty key whose resolution fails makes Get return the
key-not-found error, and every typed accessor propagates any error of
Get unchanged, so none of them fabricates a value; an unknown source
yields the not-registered error on both clients (on the file-based one
for every accessor that consults the source map). -/
theorem c3_absence_is_error :
    (∀ (a : AppConfigClient) (config key : String) (cfg : AppConfig),
        lookup a.configs config = some cfg → key ≠ "" →
        get (goSplitDots key) "" (.map cfg.data) = none →
        a.Get config key = .error .configNotFound) ∧
    (∀ (a : AppConfigClient) (config key : String) (e : CError),
        a.Get config key = .error e →
        a.GetInt config key = .error e ∧ a.GetFloat config key = .error e ∧
        a.GetString config key = .error e ∧ a.GetBool config key = .error e ∧
        a.GetSlice config key = .error e ∧ a.GetIntSlice config key = .error e ∧
        a.GetFloatSlice config key = .error e ∧ a.GetStringSlice config key = .error e ∧
        a.GetBoolSlice config key = .error e ∧ a.GetMap config key = .error e ∧
        a.GetIntMap config key = .error e ∧ a.GetFloatMap config key = .error e ∧
        a.GetStringMap config key = .error e ∧ a.GetBoolMap config key = .error e) ∧
    (∀ (a : AppConfigClient) (config key : String),
        lookup a.configs config = none →
        a.Get config key = .error .configNotAdded) ∧
    (∀ (f : FileBasedClient) (config key : String),
        lookup f.configs config = none →
        f.Get config key = .error .configNotAdded ∧
        f.GetInt config key = .error .configNotAdded ∧
        f.GetFloat config key = .error .configNotAdded ∧
        f.GetString config key = .error .configNotAdded ∧
        f.GetBool config key = .error .configNotAdded ∧
        f.GetStringSlice config key = .error .configNotAdded ∧
        f.GetMap config key = .error .configNotAdded ∧
        f.GetStringMap config key = .error .configNotAdded) := by
  refine ⟨?_, ?_, ?_, ?_⟩
  · intro a config key cfg h1 h2 h3
    simp [AppConfigClient.Get, h1, h2, h3]
  · intro a config key e h
    refine ⟨?_, ?_, ?_, ?_, ?_, ?_, ?_, ?_, ?_, ?_, ?_, ?_, ?_, ?_⟩ <;>
      simp [AppConfigClient.GetInt, AppConfigClient.GetFloat, AppConfigClient.GetString,
        AppConfigClient.GetBool, AppConfigClient.GetSlice, AppConfigClient.GetIntSlice,
        AppConfigClient.GetFloatSlice, AppConfigClient.GetStringSlice,
        AppConfigClient.GetBoolSlice, AppConfigClient.GetMap, AppConfigClient.GetIntMap,
        AppConfigClient.GetFloatMap, AppConfigClient.GetStringMap,
        AppConfigClient.GetBoolMap, h]
  · intro a config key h
    simp [AppConfigClient.Get, h]
  · intro f config key h
    refine ⟨?_, ?_, ?_, ?_, ?_, ?_, ?_, ?_⟩ <;>
      simp [FileBasedClient.Get, FileBasedClient.GetInt, FileBasedClient.GetFloat,
        FileBasedClient.GetString, FileBasedClient.GetBool,
        FileBasedClient.GetStringSlice, FileBasedClient.GetMap,
        FileBasedClient.GetStringMap, h]

/-- C3, witness: on the remote client the missing key of the scenario
fixture yields the key-not-found error, which GetInt propagates. -/
theorem c3_witness :
    scenarioClient.Get "app" "http.missing" = .error .configNotFound ∧
    scenarioClient.GetInt "app" "http.missing" = .error .configNotFound := by
  have h1 := c3_absence_is_error.1 scenarioClient "app" "http.missing"
    { version := "1"
      data := [("zero", .num 0), ("http", .map [("timeoutInMillis", .num 500)])] }
    rfl (by decide) rfl
  exact ⟨h1, (c3_absence_is_error.2.1 scenarioClient "app" "http.missing" .configNotFound h1).1⟩

/-! ### Claim C4: atomicity of a failed update cycle -/

/-- C4: if the fetch fails or the fetched content fails to parse, the
tick leaves the held configuration (version and tree) unchanged and
invokes no listener. -/
theorem c4_failed_cycle_atomicity (parse : String → Option Tree)
    (listeners : List (String × Listener)) (name : String) (cfg : AppConfig)
    (reply : FetchReply)
    (h : reply = none ∨ ∃ v c, reply = some (v, c) ∧ parse c = none) :
    (pollCycle parse listeners name cfg reply).cfg = cfg ∧
    (pollCycle parse listeners name cfg reply).calls = [] := by
  rcases h with rfl | ⟨v, c, rfl, hp⟩
  · exact ⟨rfl, rfl⟩
  · by_cases hv : v ≠ cfg.version
    · constructor <;> simp [pollCycle, hv, hp]
    · constructor <;> simp [pollCycle, hv]

/-- C4, witness: a tick whose content fails to parse keeps the held
configuration and fires nothing. -/
theorem c4_witness :
    (pollCycle (fun _ => none) [] "app" { version := "1", data := ambiguousTree }
        (some ("2", "bad"))).cfg = { version := "1", data := ambiguousTree } ∧
    (pollCycle (fun _ => none) [] "app" { version := "1", data := ambiguousTree }
        (some ("2", "bad"))).calls = [] :=
  c4_failed_cycle_atomicity (fun _ => none) [] "app"
    { version := "1", data := ambiguousTree } (some ("2", "bad"))
    (Or.inr ⟨"2", "bad", rfl, rfl⟩)

/-! ### Claim C5: poll-loop survival of failed cycles -/

/-- C5, counterexample: a fetch failure DOES terminate the watch
goroutine (the code returns with the comment "stop the watch"), so a
schedule whose first tick fails to fetch stops the loop with the
remaining ticks unprocessed. -/
theorem c5_counterexample :
    (pollCycle (fun _ => some []) [] "app" { version := "1", data := [] } none).stopped
      = true ∧
    (pollLoop (fun _ => some []) [] "app" { version := "1", data := [] }
        [none, some ("2", "c")]).2.2 = true :=
  ⟨rfl, rfl⟩

/-- C5 (amended): a PARSE failure never terminates the poll loop: a tick
whose fetch succeeds leaves the goroutine running whatever the parse
outcome, and a loop all of whose ticks fetch successfully processes its
whole schedule without stopping, however many parses fail; only a fetch
failure (or the explicit cancellation signal) ends the watch. -/
theorem c5_parse_failure_keeps_polling :
    (∀ (parse : String → Option Tree) (listeners : List (String × Listener))
        (name : String) (cfg : AppConfig) (v c : String),
        parse c = none →
        (pollCycle parse listeners name cfg (some (v, c))).stopped = false ∧
        (pollCycle parse listeners name cfg (some (v, c))).cfg = cfg) ∧
    (∀ (parse : String → Option Tree) (listeners : List (String × Listener))
        (name : String) (cfg : AppConfig) (ticks : List FetchReply),
        (∀ t ∈ ticks, t ≠ none) →
        (pollLoop parse listeners name cfg ticks).2.2 = false) := by
  constructor
  · intro parse listeners name cfg v c hp
    refine ⟨pollCycle_some_not_stopped parse listeners name cfg v c, ?_⟩
    by_cases hv : v ≠ cfg.version
    · simp [pollCycle, hv, hp]
    · simp [pollCycle, hv]
  · intro parse listeners name cfg ticks
    induction ticks generalizing cfg with
    | nil => exact fun _ => rfl
    | cons t ts ih =>
      intro h
      cases t with
      | none => exact absurd rfl (h none (by simp))
      | some p =>
        obtain ⟨v, c⟩ := p
        have hs := pollCycle_some_not_stopped parse listeners name cfg v c
        simp only [pollLoop, hs, Bool.false_eq_true, if_false]
        exact ih _ (fun u hu => h u (by simp [hu]))

/-- C5, witness: a loop of two fetch-succeeding ticks whose contents
never parse runs to the end of its schedule. -/
theorem c5_witness :
    (pollLoop (fun _ => none) [] "app" { version := "1", data := [] }
        [some ("2", "bad"), some ("3", "bad")]).2.2 = false :=
  c5_parse_failure_keeps_polling.2 (fun _ => none) [] "app"
    { version := "1", data := [] } [some ("2", "bad"), some ("3", "bad")]
    (by intro t ht; simp at ht; rcases ht with rfl | rfl <;> simp)

/-! ### Claim C6: listener discipline on a successful swap -/

/-- C6: when the remote version differs from the held one, the content
parses, and a listener is registered for the source, the tick swaps in
the new version and tree and invokes exactly that listener exactly once,
with exactly the new version and the new tree; a tick whose remote
version equals the held one changes nothing and invokes nothing, as does
a successful swap without a registered listener. -/
theorem c6_listener_discipline :
    (∀ (parse : String → Option Tree) (listeners : List (String × Listener))
        (name : String) (cfg : AppConfig) (v c : String) (d : Tree) (l : Listener),
        v ≠ cfg.version → parse c = some d → lookup listeners name = some l →
        pollCycle parse listeners name cfg (some (v, c)) =
          { cfg := { version := v, data := d }
            calls := [{ listener := l, version := v, data := d }]
            stopped := false }) ∧
    (∀ (parse : String → Option Tree) (listeners : List (String × Listener))
        (name : String) (cfg : AppConfig) (c : String),
        (pollCycle parse listeners name cfg (some (cfg.version, c))).calls = [] ∧
        (pollCycle parse listeners name cfg (some (cfg.version, c))).cfg = cfg) ∧
    (∀ (parse : String → Option Tree) (listeners : List (String × Listener))
        (name : String) (cfg : AppConfig) (v c : String) (d : Tree),
        v ≠ cfg.version → parse c = some d → lookup listeners name = none →
        (pollCycle parse listeners name cfg (some (v, c))).calls = []) := by
  refine ⟨?_, ?_, ?_⟩
  · intro parse listeners name cfg v c d l hv hp hl
    simp [pollCycle, hv, hp, hl]
  · intro parse listeners name cfg c
    constructor <;> simp [pollCycle]
  · intro parse listeners name cfg v c d hv hp hl
    simp [pollCycle, hv, hp, hl]

/-- C6, witness: a concrete successful swap with a registered listener
fires it once with the new version and tree. -/
theorem c6_witness :
    pollCycle (fun _ => some [("k", .num 1)]) [("app", 3)] "app"
        { version := "1", data := [] } (some ("2", "payload")) =
      { cfg := { version := "2", data := [("k", .num 1)] }
        calls := [{ listener := 3, version := "2", data := [("k", .num 1)] }]
        stopped := false } :=
  c6_listener_discipline.1 (fun _ => some [("k", .num 1)]) [("app", 3)] "app"
    { version := "1", data := [] } "2" "payload" [("k", .num 1)] 3
    (by decide) rfl rfl

/-! ### Claim C7: listener registration errors -/

/-- The file-based client with no configured sources at all. -/
def emptyFileClient : FileBasedClient := { configs := [], listeners := [] }

/-- C7, counterexample: on the file-based client, attaching a listener
to a source name that was never configured succeeds (and so does
removing one), with no not-registered error, contradicting the claim
that both operations fail for unknown sources. -/
theorem c7_counterexample :
    emptyFileClient.AddChangeListener "ghost" 5 =
      .ok { configs := [], listeners := [("ghost", 5)] } ∧
    emptyFileClient.RemoveChangeListener "ghost" = .ok emptyFileClient :=
  ⟨rfl, rfl⟩

/-- C7 (amended): on the remote-versioned client, both listener
operations fail with the not-registered error for a source unknown at
construction, registration on a known source stores the callback
replacing any prior one, and removal on a known source never fails, in
particular removing an absent listener returns the client unchanged; the
file-based client's operations, however, never fail whatever the source
name, likewise replacing on registration. -/
theorem c7_listener_registration :
    (∀ (a : AppConfigClient) (config : String) (l : Listener),
        lookup a.configs config = none →
        a.AddChangeListener config l = .error .configNotAdded ∧
        a.RemoveChangeListener config = .error .configNotAdded) ∧
    (∀ (a : AppConfigClient) (config : String) (l : Listener) (cfg : AppConfig),
        lookup a.configs config = some cfg →
        a.AddChangeListener config l =
          .ok { a with listeners := setKey a.listeners config l } ∧
        lookup (setKey a.listeners config l) config = some l ∧
        a.RemoveChangeListener config =
          .ok { a with listeners := delKey a.listeners config }) ∧
    (∀ (a : AppConfigClient) (config : String) (cfg : AppConfig),
        lookup a.configs config = some cfg → lookup a.listeners config = none →
        a.RemoveChangeListener config = .ok a) ∧
    (∀ (f : FileBasedClient) (config : String) (l : Listener),
        f.AddChangeListener config l =
          .ok { f with listeners := setKey f.listeners config l } ∧
        lookup (setKey f.listeners config l) config = some l ∧
        f.RemoveChangeListener config =
          .ok { f with listeners := delKey f.listeners config }) := by
  refine ⟨?_, ?_, ?_, ?_⟩
  · intro a config l h
    constructor <;>
      simp [AppConfigClient.AddChangeListener, AppConfigClient.RemoveChangeListener, h]
  · intro a config l cfg h
    refine ⟨?_, lookup_setKey_self a.listeners config l, ?_⟩ <;>
      simp [AppConfigClient.AddChangeListener, AppConfigClient.RemoveChangeListener, h]
  · intro a config cfg h hl
    simp [AppConfigClient.RemoveChangeListener, h, delKey_of_lookup_none a.listeners config hl]
  · intro f config l
    exact ⟨rfl, lookup_setKey_self f.listeners config l, rfl⟩

/-- C7, witness: on the remote client, an unconfigured source name is
rejected by both operations, and a configured one accepts and stores
the callback. -/
theorem c7_witness :
    ambiguousClient.AddChangeListener "ghost" 5 = .error .configNotAdded ∧
    ambiguousClient.RemoveChangeListener "ghost" = .error .configNotAdded ∧
    lookup (setKey ambiguousClient.listeners "app" 5) "app" = some 5 := by
  have h1 := c7_listener_registration.1 ambiguousClient "ghost" 5 rfl
  have h2 := c7_listener_registration.2.1 ambiguousClient "app" 5
    { version := "1", data := ambiguousTree } rfl
  exact ⟨h1.1, h1.2, h2.2.1⟩

/-! ### Claim C8: numeric coercion by truncation toward zero -/

/-- A remote-versioned client whose source app holds non-integer
float64 values of both signs. -/
def fractionClient : AppConfigClient :=
  { configs :=
      [("app",
        { version := "1"
          data := [("pos", .num (Rat.divInt 7 2)), ("neg", .num (Rat.divInt (-7) 2))] })]
    listeners := []
    signalBuf := 0 }

/-- C8: a key resolving to a number is returned by GetInt as the int64
conversion of its float64 content, and that conversion is truncation
toward zero: it agrees with the floor on nonnegative numbers and with
the ceiling on negative ones; GetIntSlice and GetIntMap convert every
float64 element and entry the same way. The internal float64
representation of all source numbers is the number constructor of Value,
modelled from the specification since the document parsers are external
libraries. -/
theorem c8_numeric_truncation :
    (∀ (a : AppConfigClient) (config key : String) (q : Rat),
        a.Get config key = .ok (.num q) →
        a.GetInt config key = .ok (goInt64OfFloat q)) ∧
    (∀ q : Rat, 0 ≤ q → goInt64OfFloat q = ⌊q⌋) ∧
    (∀ q : Rat, q < 0 → goInt64OfFloat q = ⌈q⌉) ∧
    (∀ (a : AppConfigClient) (config key : String) (qs : List Rat),
        a.Get config key = .ok (.arr (qs.map Value.num)) →
        a.GetIntSlice config key = .ok (qs.map goInt64OfFloat)) ∧
    (∀ (a : AppConfigClient) (config key : String) (entries : List (String × Rat)),
        a.Get config key = .ok (.map (entries.map (fun p => (p.1, Value.num p.2)))) →
        a.GetIntMap config key = .ok (entries.map (fun p => (p.1, goInt64OfFloat p.2)))) := by
  refine ⟨?_, ?_, ?_, ?_, ?_⟩
  · intro a config key q h
    simp [AppConfigClient.GetInt, h]
  · intro q hq
    have hn : 0 ≤ q.num := Rat.num_nonneg.mpr hq
    have hd : (0 : Int) ≤ (q.den : Int) := Int.ofNat_nonneg _
    rw [goInt64OfFloat, Rat.floor_def]
    exact Int.tdiv_eq_ediv hn hd
  · intro q hq
    have h1 : (0 : Rat) ≤ -q := by linarith
    have hn : 0 ≤ -q.num := by
      have := Rat.num_nonneg.mpr h1
      rwa [Rat.neg_num] at this
    have hd : (0 : Int) ≤ (q.den : Int) := Int.ofNat_nonneg _
    have h2 : q.num.tdiv (q.den : Int) = -((-q.num).tdiv (q.den : Int)) := by
      rw [Int.neg_tdiv, neg_neg]
    have h3 : ((-q.num).tdiv (q.den : Int)) = ⌊-q⌋ := by
      rw [Int.tdiv_eq_ediv hn hd, Rat.floor_def, Rat.neg_num, Rat.neg_den]
    rw [goInt64OfFloat, h2, h3, Int.floor_neg, neg_neg]
  · intro a config key qs h
    have hfm := filterMap_elemInt_map_num qs
    simp only [List.filterMap_map] at hfm
    simp [AppConfigClient.GetIntSlice, AppConfigClient.GetSlice, h, hfm]
  · intro a config key entries h
    simp [AppConfigClient.GetIntMap, AppConfigClient.GetMap, h,
      filterEntries_elemInt_map_num]

/-- C8, witness: 3.5 truncates to 3 and -3.5 truncates to -3 through
the accessor and through the conversion itself. -/
theorem c8_witness :
    fractionClient.GetInt "app" "pos" = .ok (goInt64OfFloat (Rat.divInt 7 2)) ∧
    goInt64OfFloat (Rat.divInt 7 2) = ⌊Rat.divInt 7 2⌋ ∧
    goInt64OfFloat (Rat.divInt (-7) 2) = ⌈Rat.divInt (-7) 2⌉ ∧
    goInt64OfFloat (Rat.divInt 7 2) = 3 ∧
    goInt64OfFloat (Rat.divInt (-7) 2) = -3 :=
  ⟨c8_numeric_truncation.1 fractionClient "app" "pos" (Rat.divInt 7 2) rfl,
    c8_numeric_truncation.2.1 (Rat.divInt 7 2) (by decide),
    c8_numeric_truncation.2.2.1 (Rat.divInt (-7) 2) (by decide),
    by decide, by decide⟩

/-! ### Claim C9: close idempotence -/

/-- A freshly constructed remote-versioned client: nothing has been sent
on its close channel yet. -/
def freshRemoteClient : AppConfigClient :=
  { configs := [("app", { version := "1", data := [] })]
    listeners := []
    signalBuf := 0 }

/-- The same client after one Close whose signal no watch goroutine has
drained: the capacity-1 buffer is full. -/
def onceClosedRemoteClient : AppConfigClient :=
  { freshRemoteClient with signalBuf := 1 }

/-- C9, counterexample: on the remote-versioned client, the first Close
completes with a nil error, but a second Close while the buffered signal
is undrained (no watch goroutine alive to receive it) blocks forever on
the channel send and never completes, so the second call is not safe. -/
theorem c9_counterexample :
    freshRemoteClient.CloseStep = some (onceClosedRemoteClient, none) ∧
    onceClosedRemoteClient.CloseStep = none :=
  ⟨rfl, rfl⟩

/-- C9 (amended): the file-based Close always completes, returns a nil
error, clears the client, and a second call completes identically, so
double close is safe there; the remote-versioned Close never returns a
non-nil error whenever it completes, and from a fresh client the first
call completes with a nil error, but the second call completes only if
the buffered signal has been drained in between, blocking forever
otherwise. -/
theorem c9_close_idempotence :
    (∀ f : FileBasedClient,
        f.CloseStep = ({ configs := [], listeners := [] }, none) ∧
        f.CloseStep.1.CloseStep = f.CloseStep) ∧
    (∀ (a : AppConfigClient) (r : AppConfigClient × Option CError),
        a.CloseStep = some r → r.2 = none) ∧
    (∀ a : AppConfigClient, a.signalBuf = 0 →
        ∃ a', a.CloseStep = some (a', none) ∧ a'.CloseStep = none) := by
  refine ⟨fun f => ⟨rfl, rfl⟩, ?_, ?_⟩
  · intro a r h
    unfold AppConfigClient.CloseStep at h
    cases hc : chanSendCap1 a.signalBuf with
    | none => rw [hc] at h; cases h
    | some b =>
      rw [hc] at h
      cases h
      rfl
  · intro a h
    refine ⟨{ a with signalBuf := 1 }, ?_, ?_⟩
    · simp [AppConfigClient.CloseStep, chanSendCap1, h]
    · simp [AppConfigClient.CloseStep, chanSendCap1]

/-- C9, witness: from the fresh remote client, the first Close
completes cleanly and the undrained second Close never does. -/
theorem c9_witness :
    ∃ a', freshRemoteClient.CloseStep = some (a', none) ∧ a'.CloseStep = none :=
  c9_close_idempotence.2.2 freshRemoteClient rfl

/-! ### Claim C10: lossy element filtering in typed collection accessors -/

/-- A remote-versioned client whose source app holds a slice and a map
none of whose elements are numbers. -/
def wrongTypedClient : AppConfigClient :=
  { configs :=
      [("app",
        { version := "1"
          data := [("xs", .arr [.num 1, .bool true]),
                   ("ys", .arr [.str "a", .bool true]),
                   ("m", .map [("k", .str "v"), ("l", .bool false)])] })]
    listeners := []
    signalBuf := 0 }

/-- C10: on a key resolving to a slice, each element-typed slice
accessor returns, with a nil error, exactly the elements whose dynamic
type matches, silently dropping the rest; consequently a slice none of
whose elements match yields the empty result with a nil error rather
than a type-mismatch error, and likewise for the typed map accessors
and for the file-based element-typed variants. -/
theorem c10_lossy_element_filtering :
    (∀ (a : AppConfigClient) (config key : String) (xs : List Value),
        a.Get config key = .ok (.arr xs) →
        a.GetIntSlice config key = .ok (xs.filterMap AppConfigClient.elemInt) ∧
        a.GetFloatSlice config key = .ok (xs.filterMap AppConfigClient.elemFloat) ∧
        a.GetStringSlice config key = .ok (xs.filterMap AppConfigClient.elemString) ∧
        a.GetBoolSlice config key = .ok (xs.filterMap AppConfigClient.elemBool)) ∧
    (∀ (a : AppConfigClient) (config key : String) (xs : List Value),
        a.Get config key = .ok (.arr xs) →
        (∀ x ∈ xs, AppConfigClient.elemString x = none) →
        a.GetStringSlice config key = .ok []) ∧
    (∀ (a : AppConfigClient) (config key : String) (m : Tree),
        a.Get config key = .ok (.map m) →
        (∀ p ∈ m, AppConfigClient.elemInt p.2 = none) →
        a.GetIntMap config key = .ok []) ∧
    (∀ (f : FileBasedClient) (config key : String) (xs : List Value),
        f.Get config key = .ok (some (.arr xs)) →
        (∀ x ∈ xs, AppConfigClient.elemInt x = none) →
        f.GetIntSlice config key = .ok []) := by
  refine ⟨?_, ?_, ?_, ?_⟩
  · intro a config key xs h
    refine ⟨?_, ?_, ?_, ?_⟩ <;>
      simp [AppConfigClient.GetIntSlice, AppConfigClient.GetFloatSlice,
        AppConfigClient.GetStringSlice, AppConfigClient.GetBoolSlice,
        AppConfigClient.GetSlice, h]
  · intro a config key xs h hall
    simp [AppConfigClient.GetStringSlice, AppConfigClient.GetSlice, h,
      List.filterMap_eq_nil_iff.mpr hall]
  · intro a config key m h hall
    simp [AppConfigClient.GetIntMap, AppConfigClient.GetMap, h,
      filterEntries_eq_nil AppConfigClient.elemInt m hall]
  · intro f config key xs h hall
    simp [FileBasedClient.GetIntSlice, FileBasedClient.GetSlice, h,
      List.filterMap_eq_nil_iff.mpr hall]

/-- C10, witness: a slice holding a number and a boolean yields the
empty string slice with a nil error, and the all-wrong-typed map yields
the empty int map with a nil error. -/
theorem c10_witness :
    wrongTypedClient.GetStringSlice "app" "xs" = .ok [] ∧
    wrongTypedClient.GetIntMap "app" "m" = .ok [] := by
  constructor
  · exact c10_lossy_element_filtering.2.1 wrongTypedClient "app" "xs"
      [.num 1, .bool true] rfl
      (by intro x hx; simp at hx; rcases hx with rfl | rfl <;> rfl)
  · exact c10_lossy_element_filtering.2.2.1 wrongTypedClient "app" "m"
      [("k", .str "v"), ("l", .bool false)] rfl
      (by intro p hp; simp at hp; rcases hp with rfl | rfl <;> rfl)

end GoConfigClient
